import Mathlib

/-!
Shallow embedding of the maternal-nutrition recommendation engine
(src/ai_engine/nutritional_analyzer.py, recommender.py, meal_planner.py,
chatbot.py and src/models/food.py, user.py, interaction.py,
recommendation.py), together with theorems settling the stated claims.

Python floats are modelled as rationals, dicts as association lists with
first-hit lookup, and database rows as plain structures.  Free text is
modelled as lists of characters so that Python substring tests translate
to list-infix tests.  The two sources of randomness in the meal planner
(random.randint and random.sample) are threaded as explicit parameters,
as the specification requires them to be injectable.
-/

/-- Python str.lower over a list of characters (ASCII-faithful). -/
def strLower (s : List Char) : List Char := s.map Char.toLower

/-- Python dict.get(k, d) over an association list. -/
def lookupD {α β : Type} [BEq α] (m : List (α × β)) (k : α) (d : β) : β :=
  (List.lookup k m).getD d

/-- Python `k in dict` over an association list. -/
def hasKey {α β : Type} [BEq α] (m : List (α × β)) (k : α) : Bool :=
  (List.lookup k m).isSome

/-- One insertion step of a stable descending sort: the new element goes
after every element whose key is at least its own. -/
def insertDesc {α κ : Type} [LinearOrder κ] (key : α → κ) (x : α) : List α → List α
  | [] => [x]
  | y :: ys => if key y < key x then x :: y :: ys else y :: insertDesc key x ys

/-- Stable descending sort by key; models Python list.sort(key, reverse=True). -/
def sortDescBy {α κ : Type} [LinearOrder κ] (key : α → κ) (l : List α) : List α :=
  l.foldl (fun acc x => insertDesc key x acc) []

/-- Row of the food_items table (src/models/food.py), with the two JSON text
columns already decoded to association lists, as get_nutritional_info and
get_trimester_suitability do. -/
structure FoodItem where
  id : ℕ
  name_english : List Char
  name_hindi : Option (List Char)
  category : String
  nutritional_info : List (String × ℚ)
  trimester_suitability : List (String × Bool)
  regional_origin : Option String
  preparation_tips : Option (List Char)
  benefits : Option (List Char)
  precautions : Option (List Char)
deriving DecidableEq

/-- The health_conditions JSON of a user row, with the keys read by
check_safety (allergies, diabetes, hypertension). -/
structure HealthConditions where
  allergies : List (List Char)
  diabetes : Bool
  hypertension : Bool
deriving DecidableEq

/-- The fields of a users row that the engine reads (src/models/user.py). -/
structure User where
  id : ℕ
  current_trimester : ℕ
  dietary_preferences : String
  health_conditions : HealthConditions
deriving DecidableEq

/-- A user_interactions row (src/models/interaction.py). -/
structure UserInteraction where
  user_id : ℕ
  food_item_id : ℕ
  interaction_type : String
  timestamp : ℕ
deriving DecidableEq

/-- The fixed per-trimester requirement tables of NutritionalAnalyzer,
with the dict.get(trimester, requirements[1]) default. -/
def trimester_requirements (trimester : ℕ) : List (String × ℚ) :=
  if trimester = 1 then
    [("folic_acid", 600), ("vitamin_b6", 19/10), ("iron", 27),
     ("calcium", 1000), ("protein", 60), ("calories", 1800)]
  else if trimester = 2 then
    [("calcium", 1000), ("vitamin_d", 600), ("omega3", 200),
     ("protein", 70), ("iron", 27), ("calories", 2200)]
  else if trimester = 3 then
    [("iron", 27), ("protein", 75), ("vitamin_k", 90),
     ("fiber", 28), ("calcium", 1000), ("calories", 2400)]
  else
    [("folic_acid", 600), ("vitamin_b6", 19/10), ("iron", 27),
     ("calcium", 1000), ("protein", 60), ("calories", 1800)]

/-- Loop body of calculate_nutritional_score: accumulate the capped ratio and
the matched-nutrient count for one requirement entry. -/
def scoreStep (nutrition : List (String × ℚ)) (acc : ℚ × ℕ) (nr : String × ℚ) : ℚ × ℕ :=
  match List.lookup nr.1 nutrition with
  | some amt => (acc.1 + min (amt / nr.2) 1, acc.2 + 1)
  | none => acc

/-- NutritionalAnalyzer.calculate_nutritional_score. -/
def calculate_nutritional_score (food : FoodItem) (trimester : ℕ) : ℚ :=
  let nutrition := food.nutritional_info
  let requirements := trimester_requirements trimester
  if nutrition = [] then 1/2
  else
    let acc := requirements.foldl (scoreStep nutrition) (0, 0)
    let score := if 0 < acc.2 then acc.1 / (acc.2 : ℚ) else 1/2
    min score 1

/-- The f-string warning of the allergen short-circuit in check_safety. -/
def allergenWarning (a : List Char) : List Char := "Contains allergen: ".toList ++ a

/-- Advisory warning added under the diabetes flag. -/
def sugarWarning : List Char := "High sugar content - consume in moderation".toList

/-- Advisory warning added under the hypertension flag. -/
def sodiumWarning : List Char := "High sodium - limit intake".toList

/-- NutritionalAnalyzer.check_safety. -/
def check_safety (food : FoodItem) (hc : HealthConditions) : Bool × List (List Char) :=
  match hc.allergies.find? (fun a => decide (strLower a <:+: strLower food.name_english)) with
  | some a => (false, [allergenWarning a])
  | none =>
    let w0 : List (List Char) := []
    let w1 := if hc.diabetes && decide (lookupD food.nutritional_info "sugar" 0 > 15)
      then w0 ++ [sugarWarning] else w0
    let w2 := if hc.hypertension && decide (lookupD food.nutritional_info "sodium" 0 > 200)
      then w1 ++ [sodiumWarning] else w1
    let w3 := match food.precautions with
      | some p => w2 ++ [p]
      | none => w2
    (true, w3)

/-- FoodRecommender._matches_dietary_preference. -/
def matches_dietary_preference (food : FoodItem) (preference : String) : Bool :=
  if preference == "vegan" then
    if food.category == "dairy" || food.category == "proteins" then
      if decide ("paneer".toList <:+: strLower food.name_english)
          || decide ("dahi".toList <:+: strLower food.name_english) then
        false
      else true
    else true
  else true

/-- The f-string key trimester_{t} used throughout the engine. -/
def trimesterKey (t : ℕ) : String := "trimester_" ++ toString t

/-- FoodRecommender._get_trimester_score. -/
def get_trimester_score (food : FoodItem) (trimester : ℕ) : ℚ :=
  let suitability := food.trimester_suitability
  if suitability = [] then 1/2
  else if hasKey suitability (trimesterKey trimester) then 9/10
  else if lookupD suitability "all_trimesters" false then 7/10
  else 1/2

/-- FoodRecommender._get_user_preference_score; the interaction log is passed
in place of the database query, newest-first selection modelled by the
descending sort on timestamps and the limit(10). -/
def get_user_preference_score (interactions : List UserInteraction) (food : FoodItem)
    (user : User) : ℚ :=
  let recent := (sortDescBy (fun i => i.timestamp)
    (interactions.filter (fun i => i.user_id == user.id && i.food_item_id == food.id))).take 10
  if recent = [] then 1/2
  else
    let score := recent.foldl (fun s i =>
      if i.interaction_type == "like" then s + 1/10
      else if i.interaction_type == "dislike" then s - 1/5
      else if i.interaction_type == "bookmark" then s + 1/20
      else if i.interaction_type == "view" then s + 1/100
      else s) (1/2)
    max 0 (min 1 score)

/-- The transient scored-candidate record built by get_recommendations. -/
structure ScoredCandidate where
  food : FoodItem
  score : ℚ
  warnings : List (List Char)
  nutrition_score : ℚ
  trimester_score : ℚ
  preference_score : ℚ
deriving DecidableEq

/-- The scoring loop of FoodRecommender.get_recommendations: skip unsafe foods
and dietary mismatches, otherwise build the scored candidate. -/
def recCandidates (foods : List FoodItem) (interactions : List UserInteraction)
    (user : User) : List ScoredCandidate :=
  foods.filterMap (fun food =>
    let nutrition_score := calculate_nutritional_score food user.current_trimester
    let safety := check_safety food user.health_conditions
    if safety.1 = false then none
    else if matches_dietary_preference food user.dietary_preferences = false then none
    else
      let trimester_score := get_trimester_score food user.current_trimester
      let preference_score := get_user_preference_score interactions food user
      some ⟨food,
        nutrition_score * (2/5) + trimester_score * (3/10) + preference_score * (3/10),
        safety.2, nutrition_score, trimester_score, preference_score⟩)

/-- The per-category cap max(2, max_items // 4) of _ensure_variety. -/
def varietyMax (max_items : ℕ) : ℕ := max 2 (max_items / 4)

/-- First pass of FoodRecommender._ensure_variety: admit a candidate while its
category count is below the cap, breaking once max_items are selected. -/
def varietyFirstPass (max_items : ℕ) : List ScoredCandidate → (String → ℕ) →
    List ScoredCandidate → List ScoredCandidate
  | [], _, selected => selected
  | item :: rest, counts, selected =>
    let c := item.food.category
    if counts c < varietyMax max_items then
      let selected2 := selected ++ [item]
      let counts2 : String → ℕ := fun k => if k = c then counts c + 1 else counts k
      if max_items ≤ selected2.length then selected2
      else varietyFirstPass max_items rest counts2 selected2
    else
      if max_items ≤ selected.length then selected
      else varietyFirstPass max_items rest counts selected

/-- Second pass of _ensure_variety: top up with not-yet-selected candidates in
pool order, regardless of category. -/
def varietySecondPass (max_items : ℕ) : List ScoredCandidate →
    List ScoredCandidate → List ScoredCandidate
  | [], selected => selected
  | item :: rest, selected =>
    let selected2 := if item ∈ selected then selected else selected ++ [item]
    if max_items ≤ selected2.length then selected2
    else varietySecondPass max_items rest selected2

/-- FoodRecommender._ensure_variety. -/
def ensure_variety (scored_foods : List ScoredCandidate) (max_items : ℕ) :
    List ScoredCandidate :=
  let selected := varietyFirstPass max_items scored_foods (fun _ => 0) []
  if selected.length < max_items then varietySecondPass max_items scored_foods selected
  else selected

/-- The diversity pool of get_recommendations: candidates sorted by combined
score descending, truncated to max_items * 2. -/
def recPool (foods : List FoodItem) (interactions : List UserInteraction)
    (user : User) (max_items : ℕ) : List ScoredCandidate :=
  (sortDescBy (fun s => s.score) (recCandidates foods interactions user)).take (max_items * 2)

/-- FoodRecommender.get_recommendations. -/
def get_recommendations (foods : List FoodItem) (interactions : List UserInteraction)
    (user : User) (max_items : ℕ) : List ScoredCandidate :=
  if foods = [] then []
  else (ensure_variety (recPool foods interactions user max_items) max_items).take max_items

/-- MealPlanner.meal_types. -/
def meal_types : List (List Char) :=
  ["breakfast".toList, "mid_morning_snack".toList, "lunch".toList,
   "evening_snack".toList, "dinner".toList]

/-- MealPlanner.meal_categories, as a function on slot names. -/
def meal_categories (meal_type : List Char) : List String :=
  if meal_type = "breakfast".toList then ["grains", "dairy", "fruits", "proteins"]
  else if meal_type = "mid_morning_snack".toList then ["fruits", "dry_fruits", "dairy"]
  else if meal_type = "lunch".toList then ["grains", "vegetables", "proteins", "lentils", "dairy"]
  else if meal_type = "evening_snack".toList then ["fruits", "dry_fruits", "dairy", "vegetables"]
  else if meal_type = "dinner".toList then ["grains", "vegetables", "lentils", "dairy"]
  else []

/-- MealPlanner._filter_by_diet. -/
def filter_by_diet (foods : List FoodItem) (diet_type : String) : List FoodItem :=
  if diet_type == "vegan" then
    foods.filter (fun f => !(f.category == "dairy" || f.category == "proteins"))
  else if diet_type == "vegetarian" then foods
  else foods

/-- MealPlanner._filter_safe_foods: keep a food when its suitability map marks
the user's trimester key (dict.get default True) or the all_trimesters flag,
and check_safety accepts it. -/
def filter_safe_foods (foods : List FoodItem) (user : User) : List FoodItem :=
  foods.filter (fun food =>
    (lookupD food.trimester_suitability (trimesterKey user.current_trimester) true
      || lookupD food.trimester_suitability "all_trimesters" false)
    && (check_safety food user.health_conditions).1)

/-- The optional region filter of generate_meal_plan (query.filter_by). -/
def regionFilter (foods : List FoodItem) (region : Option String) : List FoodItem :=
  match region with
  | some r => foods.filter (fun f => f.regional_origin == some r)
  | none => foods

/-- The optional diet_type filter of generate_meal_plan. -/
def dietTypeFilter (foods : List FoodItem) (diet_type : Option String) : List FoodItem :=
  match diet_type with
  | some d => filter_by_diet foods d
  | none => foods

/-- The candidate-set construction of generate_meal_plan: region filter, the
optional diet_type filter, the user's own dietary-preference filter, then
_filter_safe_foods. -/
def mealPlanCandidates (foods : List FoodItem) (user : User) (region : Option String)
    (diet_type : Option String) : List FoodItem :=
  filter_safe_foods
    (filter_by_diet (dietTypeFilter (regionFilter foods region) diet_type)
      user.dietary_preferences)
    user

/-- Injectable model of random.sample(top_foods, k), keyed by day and slot. -/
abbrev Sampler := ℕ → List Char → List (FoodItem × ℚ) → ℕ → List (FoodItem × ℚ)

/-- Injectable model of random.randint(2, 3), keyed by day and slot. -/
abbrev RandInt := ℕ → List Char → ℕ

/-- Python test 'snack' in meal_type. -/
def snackSlot (meal_type : List Char) : Bool := decide ("snack".toList <:+: meal_type)

/-- One slot of MealPlanner._generate_day_meals: filter by allowed categories
and the used set (falling back to ignoring the used set), score, sort, pool
the top 2*n and sample n of them, then mark the picks as used. -/
def slotStep (safe : List FoodItem) (user : User) (sample : Sampler) (randint : RandInt)
    (day : ℕ) (acc : List (List Char × List FoodItem) × List ℕ) (meal_type : List Char) :
    List (List Char × List FoodItem) × List ℕ :=
  let pool0 := safe.filter (fun f =>
    (meal_categories meal_type).contains f.category && !(acc.2.contains f.id))
  let meal_foods := if pool0 = [] then
    safe.filter (fun f => (meal_categories meal_type).contains f.category) else pool0
  if meal_foods = [] then acc
  else
    let num_items := if snackSlot meal_type then 2 else randint day meal_type
    let scored := meal_foods.map (fun f => (f, calculate_nutritional_score f user.current_trimester))
    let top_foods := (sortDescBy (fun p => p.2) scored).take (num_items * 2)
    let selected := sample day meal_type top_foods (min num_items top_foods.length)
    let selected_foods := selected.map (fun p => p.1)
    (acc.1 ++ [(meal_type, selected_foods)], acc.2 ++ selected_foods.map (fun f => f.id))

/-- MealPlanner._generate_day_meals, also returning the updated used set. -/
def generate_day_meals (safe : List FoodItem) (user : User) (used : List ℕ) (day : ℕ)
    (sample : Sampler) (randint : RandInt) :
    List (List Char × List FoodItem) × List ℕ :=
  meal_types.foldl (slotStep safe user sample randint day) ([], used)

/-- One generated day of a meal plan (the date string is omitted: wall-clock
time is outside the embedding). -/
structure DayPlan where
  day : ℕ
  meals : List (List Char × List FoodItem)
  daily_nutrition : List (String × ℚ)
deriving DecidableEq

/-- The nutrient keys summed by _calculate_daily_nutrition. -/
def nutrient_keys : List String :=
  ["calories", "protein", "iron", "calcium", "fiber", "folic_acid"]

/-- FoodItem.query.get(id) followed by the nutrient read of
_calculate_daily_nutrition (missing food or nutrient contributes 0). -/
def foodNutrientFromCatalog (catalog : List FoodItem) (fid : ℕ) (k : String) : ℚ :=
  match catalog.find? (fun g => g.id == fid) with
  | some food => lookupD food.nutritional_info k 0
  | none => 0

/-- MealPlanner._calculate_daily_nutrition. -/
def calculate_daily_nutrition (catalog : List FoodItem)
    (meals : List (List Char × List FoodItem)) : List (String × ℚ) :=
  nutrient_keys.map (fun k =>
    (k, (meals.map (fun slot => (slot.2.map (fun f => foodNutrientFromCatalog catalog f.id k)).sum)).sum))

/-- The day loop of generate_meal_plan: clear the used set every third day,
then generate the day's meals, threading the used set. -/
def genDaysLoop (catalog safe : List FoodItem) (user : User) (sample : Sampler)
    (randint : RandInt) : List ℕ → List ℕ → List DayPlan
  | [], _ => []
  | day :: rest, used =>
    let used2 := if day % 3 = 0 then [] else used
    let dm := generate_day_meals safe user used2 day sample randint
    ⟨day, dm.1, calculate_daily_nutrition catalog dm.1⟩ ::
      genDaysLoop catalog safe user sample randint rest dm.2

/-- Round half to even on an exact rational, as Python round does ideally. -/
def roundHalfEven (q : ℚ) : ℤ :=
  if q - ⌊q⌋ < 1/2 then ⌊q⌋
  else if 1/2 < q - ⌊q⌋ then ⌊q⌋ + 1
  else if ⌊q⌋ % 2 = 0 then ⌊q⌋ else ⌊q⌋ + 1

/-- Python round(x, 2) on an exact rational. -/
def pythonRound2 (q : ℚ) : ℚ := (roundHalfEven (q * 100) : ℚ) / 100

/-- MealPlanner._calculate_plan_summary. -/
def calculate_plan_summary (plan : List DayPlan) : List (String × ℚ) :=
  ("total_days", (plan.length : ℚ)) ::
  nutrient_keys.map (fun k =>
    ("avg_daily_" ++ k,
     pythonRound2 ((plan.map (fun d => lookupD d.daily_nutrition k 0)).sum / (plan.length : ℚ))))

/-- One row of MealPlanner._format_as_table. -/
structure TableRow where
  day : ℕ
  breakfast : List Char
  mid_morning_snack : List Char
  lunch : List Char
  evening_snack : List Char
  dinner : List Char
  calories : ℚ
deriving DecidableEq

/-- The comma join of food names used by _format_as_table. -/
def joinFoodNames (foods : List FoodItem) : List Char :=
  List.intercalate (", ".toList) (foods.map (fun f => f.name_english))

/-- MealPlanner._format_as_table. -/
def format_as_table (plan : List DayPlan) : List TableRow :=
  plan.map (fun d =>
    ⟨d.day,
     joinFoodNames (lookupD d.meals ("breakfast".toList) []),
     joinFoodNames (lookupD d.meals ("mid_morning_snack".toList) []),
     joinFoodNames (lookupD d.meals ("lunch".toList) []),
     joinFoodNames (lookupD d.meals ("evening_snack".toList) []),
     joinFoodNames (lookupD d.meals ("dinner".toList) []),
     lookupD d.daily_nutrition "calories" 0⟩)

/-- The two result shapes of generate_meal_plan: the error dictionary and the
success dictionary. -/
inductive PlanResult where
  | err (message : String) (meal_plan : List DayPlan) (nutrition_summary : List (String × ℚ))
  | ok (meal_plan : List DayPlan) (nutrition_summary : List (String × ℚ))
      (table_format : List TableRow)
deriving DecidableEq

/-- The error message of the empty-candidate-set branch. -/
def noSuitableFoodsMessage : String := "No suitable foods found for your preferences"

/-- MealPlanner.generate_meal_plan. -/
def generate_meal_plan (foods : List FoodItem) (user : User) (days : ℤ)
    (region diet_type : Option String) (sample : Sampler) (randint : RandInt) : PlanResult :=
  let days2 := max 1 (min days 30)
  let safe_foods := mealPlanCandidates foods user region diet_type
  if safe_foods = [] then .err noSuitableFoodsMessage [] []
  else
    let meal_plan := genDaysLoop foods safe_foods user sample randint
      (List.range' 1 days2.toNat) []
    .ok meal_plan (calculate_plan_summary meal_plan) (format_as_table meal_plan)

/-- Keyword set of the safety_check intent (chatbot.classify_intent). -/
def safetyKeywords : List (List Char) :=
  ["can i eat".toList, "is it safe".toList, "safe to eat".toList, "should i avoid".toList]

/-- Keyword set of the benefits intent. -/
def benefitsKeywords : List (List Char) :=
  ["benefits".toList, "good for".toList, "why eat".toList, "advantages".toList]

/-- Keyword set of the nutritional_info intent. -/
def nutritionKeywords : List (List Char) :=
  ["nutrition".toList, "nutrients".toList, "vitamins".toList, "minerals".toList,
   "protein".toList, "calcium".toList, "iron".toList]

/-- Keyword set of the quantity intent. -/
def quantityKeywords : List (List Char) :=
  ["how much".toList, "quantity".toList, "how many".toList, "serving".toList]

/-- Keyword set of the preparation intent. -/
def preparationKeywords : List (List Char) :=
  ["how to".toList, "prepare".toList, "cook".toList, "recipe".toList]

/-- Keyword set of the precautions intent. -/
def precautionsKeywords : List (List Char) :=
  ["precaution".toList, "warning".toList, "avoid".toList, "risk".toList]

/-- Keyword set of the trimester_specific intent. -/
def trimesterKeywords : List (List Char) :=
  ["trimester".toList, "first trimester".toList, "second trimester".toList,
   "third trimester".toList]

/-- Python any(word in question_lower for word in words). -/
def anyKeywordIn (q : List Char) (kws : List (List Char)) : Bool :=
  kws.any (fun w => decide (w <:+: q))

/-- MaternalFoodChatbot.classify_intent: the if/elif chain over the lowercased
question. -/
def classify_intent (question : List Char) : String :=
  let ql := strLower question
  if anyKeywordIn ql safetyKeywords then "safety_check"
  else if anyKeywordIn ql benefitsKeywords then "benefits"
  else if anyKeywordIn ql nutritionKeywords then "nutritional_info"
  else if anyKeywordIn ql quantityKeywords then "quantity"
  else if anyKeywordIn ql preparationKeywords then "preparation"
  else if anyKeywordIn ql precautionsKeywords then "precautions"
  else if anyKeywordIn ql trimesterKeywords then "trimester_specific"
  else "general"

/-- Modelled from the spec wording of the classification contract: the fixed
priority order of the seven categories with their keyword sets. -/
def intentTable : List (String × List (List Char)) :=
  [("safety_check", safetyKeywords), ("benefits", benefitsKeywords),
   ("nutritional_info", nutritionKeywords), ("quantity", quantityKeywords),
   ("preparation", preparationKeywords), ("precautions", precautionsKeywords),
   ("trimester_specific", trimesterKeywords)]

/-- Modelled from the spec wording: return the first category of the ordered
table whose keyword set matches, with general as the fallback. -/
def firstMatchIntent (ql : List Char) : List (String × List (List Char)) → String
  | [] => "general"
  | (cat, kws) :: rest => if anyKeywordIn ql kws then cat else firstMatchIntent ql rest

/-- The spec-side classifier: first matching category in the fixed order. -/
def classifyIntentSpec (question : List Char) : String :=
  firstMatchIntent (strLower question) intentTable

/-- The decimal digit character of d. -/
def digitChar (d : ℕ) : Char := Char.ofNat (48 + d)

/-- The numeric value of a decimal digit character. -/
def charDigit (c : Char) : ℕ := c.toNat - 48

/-- Decimal rendering of a natural number, as Python str. -/
def encodeNat (n : ℕ) : List Char :=
  if n = 0 then ['0'] else (Nat.digits 10 n).reverse.map digitChar

/-- Json.dumps body of a list of ids: decimal items joined by comma-space. -/
def encodeIdList : List ℕ → List Char
  | [] => []
  | [n] => encodeNat n
  | n :: rest => encodeNat n ++ ',' :: ' ' :: encodeIdList rest

/-- json.dumps of a list of ids. -/
def jsonDumpIds (l : List ℕ) : List Char := '[' :: encodeIdList l ++ [']']

/-- Read a maximal leading run of decimal digits as a number. -/
def parseNatTok (s : List Char) : Option (ℕ × List Char) :=
  let ds := s.takeWhile Char.isDigit
  if ds = [] then none
  else some (Nat.ofDigits 10 (ds.map charDigit).reverse, s.dropWhile Char.isDigit)

/-- Item loop of the json.loads model for an id array: a number, then either
the closing bracket or a comma-space and the remaining items. -/
def jsonLoadItems : ℕ → List Char → Option (List ℕ)
  | 0, _ => none
  | fuel + 1, s =>
    match parseNatTok s with
    | none => none
    | some (n, rest) =>
      match rest with
      | ']' :: rest2 => if rest2 = [] then some [n] else none
      | ',' :: ' ' :: rest2 => (jsonLoadItems fuel rest2).map (fun l => n :: l)
      | _ => none

/-- json.loads restricted to arrays of natural numbers, the grammar produced
by jsonDumpIds. -/
def jsonLoadIds (s : List Char) : Option (List ℕ) :=
  match s with
  | '[' :: rest => if rest = [']'] then some [] else jsonLoadItems rest.length rest
  | _ => none

/-- A recommendations row (src/models/recommendation.py); food_items is the
stored JSON text column. -/
structure Recommendation where
  user_id : ℕ
  food_items : List Char
  trimester : ℕ
  reason : Option (List Char)
deriving DecidableEq

/-- Recommendation.set_food_items: store json.dumps of the id list. -/
def Recommendation.set_food_items (r : Recommendation) (items_list : List ℕ) : Recommendation :=
  ⟨r.user_id, jsonDumpIds items_list, r.trimester, r.reason⟩

/-- Recommendation.get_food_items: json.loads of the stored text, with the
falsy-string and exception fallbacks to the empty list. -/
def Recommendation.get_food_items (r : Recommendation) : List ℕ :=
  if r.food_items = [] then [] else (jsonLoadIds r.food_items).getD []

/-- Concrete food with an empty suitability map, for the C1 counterexample. -/
def c1Food : FoodItem :=
  ⟨1, "Apple".toList, none, "fruits", [], [], none, none, none, none⟩

/-- Concrete user with no health conditions, for the C1 counterexample. -/
def c1User : User := ⟨1, 1, "vegetarian", ⟨[], false, false⟩⟩

/-- Concrete food whose map sets the trimester-1 key to false, for the C1
amended-claim witness. -/
def c1FoodExcluded : FoodItem :=
  ⟨2, "Papaya".toList, none, "fruits", [], [("trimester_1", false)], none, none, none, none⟩

/-- Concrete food with an empty nutrient map, for the C4 witness. -/
def c4Food : FoodItem :=
  ⟨8, "Ragi".toList, none, "grains", [], [], none, none, none, none⟩

/-- Concrete food whose name matches an allergen, for the C5 witness. -/
def c5Food : FoodItem :=
  ⟨3, "Milk Shake".toList, none, "dairy", [], [], none, none, none, none⟩

/-- Concrete health conditions with a milk allergy, for the C5 witness. -/
def c5Health : HealthConditions := ⟨["milk".toList], false, false⟩

/-- Concrete user for the C6 witness. -/
def c6User : User := ⟨2, 2, "vegetarian", ⟨[], false, false⟩⟩

/-- Concrete fruit food for the C7 witness. -/
def c7Food : FoodItem :=
  ⟨4, "Banana".toList, none, "fruits", [], [], none, none, none, none⟩

/-- Concrete user for the C7 witness. -/
def c7User : User := ⟨3, 1, "vegetarian", ⟨[], false, false⟩⟩

/-- Deterministic sampler for the C7 witness: take the first k pool entries. -/
def takeSampler : Sampler := fun _ _ pool k => pool.take k

/-- Deterministic stand-in for random.randint(2, 3) in the C7 witness. -/
def twoRandInt : RandInt := fun _ _ => 2

/-- Concrete recommendation row for the C9 witness. -/
def c9Rec : Recommendation := ⟨1, [], 1, none⟩

/-- Concrete catalog for the C9 witness. -/
def c9Catalog : List FoodItem :=
  [⟨10, "Spinach".toList, none, "vegetables", [], [], none, none, none, none⟩,
   ⟨11, "Dates".toList, none, "dry_fruits", [], [], none, none, none, none⟩]

/-- Concrete dairy food without the hardcoded non-vegan name markers, for the
C10 strictness part. -/
def c10Milk : FoodItem :=
  ⟨5, "Milk".toList, some "Doodh".toList, "dairy", [], [], none, none, none, none⟩

/-- Concrete dairy food whose name contains the paneer marker, for the C10
witness. -/
def c10Paneer : FoodItem :=
  ⟨6, "Palak Paneer".toList, none, "dairy", [], [], none, none, none, none⟩

/-- Concrete fruit food for the C10 witness. -/
def c10Apple : FoodItem :=
  ⟨7, "Apple".toList, none, "fruits", [], [], none, none, none, none⟩

/-- Concrete vegan user for the C10 witness. -/
def c10VeganUser : User := ⟨4, 1, "vegan", ⟨[], false, false⟩⟩

theorem mem_insertDesc {α κ : Type} [LinearOrder κ] (key : α → κ) (x a : α) (l : List α) :
    a ∈ insertDesc key x l ↔ a = x ∨ a ∈ l := by
  induction l with
  | nil => simp [insertDesc]
  | cons y ys ih =>
    simp only [insertDesc]
    split
    · simp
    · simp only [List.mem_cons, ih]
      tauto

theorem length_insertDesc {α κ : Type} [LinearOrder κ] (key : α → κ) (x : α) (l : List α) :
    (insertDesc key x l).length = l.length + 1 := by
  induction l with
  | nil => simp [insertDesc]
  | cons y ys ih =>
    simp only [insertDesc]
    split
    · simp
    · simp [ih]

theorem mem_foldl_insertDesc {α κ : Type} [LinearOrder κ] (key : α → κ) (a : α)
    (l : List α) : ∀ acc : List α,
    (a ∈ l.foldl (fun acc x => insertDesc key x acc) acc ↔ a ∈ acc ∨ a ∈ l) := by
  induction l with
  | nil => intro acc; simp
  | cons y ys ih =>
    intro acc
    simp only [List.foldl_cons, ih, mem_insertDesc, List.mem_cons]
    tauto

theorem mem_sortDescBy {α κ : Type} [LinearOrder κ] (key : α → κ) (a : α) (l : List α) :
    a ∈ sortDescBy key l ↔ a ∈ l := by
  simp [sortDescBy, mem_foldl_insertDesc]

theorem length_foldl_insertDesc {α κ : Type} [LinearOrder κ] (key : α → κ)
    (l : List α) : ∀ acc : List α,
    (l.foldl (fun acc x => insertDesc key x acc) acc).length = acc.length + l.length := by
  induction l with
  | nil => intro acc; simp
  | cons y ys ih =>
    intro acc
    simp only [List.foldl_cons, ih, length_insertDesc, List.length_cons]
    omega

theorem length_sortDescBy {α κ : Type} [LinearOrder κ] (key : α → κ) (l : List α) :
    (sortDescBy key l).length = l.length := by
  simp [sortDescBy, length_foldl_insertDesc]

/-- C5: check_safety returns isSafe=false iff some configured allergen matches
case-insensitively inside the food's English name, in which case the warning
list is exactly the single warning naming that allergen; with no allergen
match it returns isSafe=true regardless of the advisory warnings. -/
theorem c5_check_safety (food : FoodItem) (hc : HealthConditions) :
    ((check_safety food hc).1 = false ↔
      ∃ a ∈ hc.allergies, strLower a <:+: strLower food.name_english)
    ∧ ((check_safety food hc).1 = false →
      ∃ a ∈ hc.allergies, (strLower a <:+: strLower food.name_english) ∧
        (check_safety food hc).2 = [allergenWarning a]) := by
  rcases h : hc.allergies.find?
      (fun a => decide (strLower a <:+: strLower food.name_english)) with _ | a
  · have hnone := List.find?_eq_none.mp h
    have h1 : (check_safety food hc).1 = true := by
      simp only [check_safety, h]
    rw [h1]
    refine ⟨⟨fun hco => absurd hco (by simp), ?_⟩, fun hco => absurd hco (by simp)⟩
    rintro ⟨a, ha, hinf⟩
    have := hnone a ha
    simp only [decide_eq_true_eq] at this
    exact absurd hinf this
  · have hp := List.find?_some h
    have hm := List.mem_of_find?_eq_some h
    simp only [decide_eq_true_eq] at hp
    have h1 : check_safety food hc = (false, [allergenWarning a]) := by
      simp only [check_safety, h]
    rw [h1]
    exact ⟨⟨fun _ => ⟨a, hm, hp⟩, fun _ => rfl⟩, fun _ => ⟨a, hm, hp, rfl⟩⟩

theorem c5_check_safety_witness :
    (check_safety c5Food c5Health).1 = false ∧
    ∃ a ∈ c5Health.allergies, (strLower a <:+: strLower c5Food.name_english) ∧
      (check_safety c5Food c5Health).2 = [allergenWarning a] :=
  ⟨by decide, (c5_check_safety c5Food c5Health).2 (by decide)⟩

/-- C8: classify_intent agrees with the first-match-in-fixed-priority-order
semantics over the seven keyword sets with general as fallback, and classifies
the papaya question as safety_check even though a trimester keyword occurs. -/
theorem c8_classify_intent :
    (∀ q : List Char, classify_intent q = classifyIntentSpec q)
    ∧ classify_intent ("Can I eat papaya during first trimester?".toList) = "safety_check" :=
  ⟨fun _ => rfl, by decide⟩

/-- C6: with an empty filtered candidate set, generate_meal_plan returns the
structured error value with the no-suitable-foods message, an empty plan and
an empty nutrition summary. -/
theorem c6_empty_candidates (foods : List FoodItem) (user : User) (days : ℤ)
    (region diet_type : Option String) (sample : Sampler) (randint : RandInt)
    (h : mealPlanCandidates foods user region diet_type = []) :
    generate_meal_plan foods user days region diet_type sample randint =
      PlanResult.err noSuitableFoodsMessage [] []
    ∧ ("no suitable foods".toList <:+: strLower noSuitableFoodsMessage.toList) := by
  constructor
  · simp [generate_meal_plan, h]
  · decide

theorem c6_empty_candidates_witness :
    generate_meal_plan [] c6User 7 none none takeSampler twoRandInt =
      PlanResult.err noSuitableFoodsMessage [] [] :=
  (c6_empty_candidates [] c6User 7 none none takeSampler twoRandInt (by decide)).1

/-- C1 counterexample: a food whose suitability map is empty (so it neither
sets the per-trimester key to true nor the all-trimesters flag) is NOT dropped
by generate_meal_plan's candidate-set construction, contradicting the claim. -/
theorem c1_counterexample :
    List.lookup (trimesterKey c1User.current_trimester) c1Food.trimester_suitability = none
    ∧ lookupD c1Food.trimester_suitability "all_trimesters" false = false
    ∧ c1Food ∈ mealPlanCandidates [c1Food] c1User none none := by decide

/-- C1 (amended): _filter_safe_foods drops a food when its suitability map
explicitly sets the user's per-trimester key to false and does not set the
all-trimesters flag; a food whose map lacks the per-trimester key (so in
particular one with an empty map) defaults to suitable and is retained
whenever check_safety accepts it. -/
theorem c1_filter_safe_foods (foods : List FoodItem) (user : User) (f : FoodItem) :
    (List.lookup (trimesterKey user.current_trimester) f.trimester_suitability = some false →
      lookupD f.trimester_suitability "all_trimesters" false = false →
      f ∉ filter_safe_foods foods user)
    ∧ (f ∈ foods →
      List.lookup (trimesterKey user.current_trimester) f.trimester_suitability = none →
      (check_safety f user.health_conditions).1 = true →
      f ∈ filter_safe_foods foods user) := by
  constructor
  · intro h1 h2 hmem
    rw [filter_safe_foods, List.mem_filter] at hmem
    obtain ⟨-, hp⟩ := hmem
    rw [lookupD, h1] at hp
    rw [h2] at hp
    simp at hp
  · intro hmem h1 hsafe
    rw [filter_safe_foods, List.mem_filter]
    refine ⟨hmem, ?_⟩
    rw [lookupD, h1, hsafe]
    simp

theorem c1_filter_safe_foods_witness :
    c1FoodExcluded ∉ filter_safe_foods [c1FoodExcluded] c1User ∧
    c1Food ∈ filter_safe_foods [c1Food] c1User :=
  ⟨(c1_filter_safe_foods [c1FoodExcluded] c1User c1FoodExcluded).1 (by decide) (by decide),
   (c1_filter_safe_foods [c1Food] c1User c1Food).2 (by decide) (by decide) (by decide)⟩

theorem mem_of_filter_by_diet {foods : List FoodItem} {d : String} {f : FoodItem}
    (h : f ∈ filter_by_diet foods d) : f ∈ foods := by
  rw [filter_by_diet] at h
  split at h
  · exact (List.mem_filter.mp h).1
  · split at h <;> exact h

theorem not_dairy_of_mem_vegan_filter {foods : List FoodItem} {f : FoodItem}
    (h : f ∈ filter_by_diet foods "vegan") :
    f.category ≠ "dairy" ∧ f.category ≠ "proteins" := by
  have hfd : filter_by_diet foods "vegan" =
      foods.filter (fun g => !(g.category == "dairy" || g.category == "proteins")) := rfl
  rw [hfd] at h
  have hp := (List.mem_filter.mp h).2
  simp only [Bool.not_eq_true', Bool.or_eq_false_iff, beq_eq_false_iff_ne, ne_eq] at hp
  exact hp

/-- C10: under a vegan diet type or a vegan user preference the meal planner's
candidate construction excludes every dairy or proteins food outright, while
the recommender's vegan rule only rejects dairy/proteins foods whose name
carries a hardcoded marker, so the planner's exclusion is strictly stronger. -/
theorem c10_vegan_exclusion :
    (∀ (foods : List FoodItem) (f : FoodItem), f ∈ filter_by_diet foods "vegan" →
      f.category ≠ "dairy" ∧ f.category ≠ "proteins")
    ∧ (∀ (foods : List FoodItem) (user : User) (region diet_type : Option String)
        (f : FoodItem),
      (diet_type = some "vegan" ∨ user.dietary_preferences = "vegan") →
      f ∈ mealPlanCandidates foods user region diet_type →
      f.category ≠ "dairy" ∧ f.category ≠ "proteins")
    ∧ (∀ f : FoodItem, matches_dietary_preference f "vegan" = false →
      f.category = "dairy" ∨ f.category = "proteins")
    ∧ (matches_dietary_preference c10Milk "vegan" = true ∧ c10Milk.category = "dairy"
      ∧ c10Milk ∉ filter_by_diet [c10Milk] "vegan") := by
  refine ⟨fun foods f h => not_dairy_of_mem_vegan_filter h, ?_, ?_, by decide⟩
  · intro foods user region diet_type f hveg hmem
    rw [mealPlanCandidates, filter_safe_foods] at hmem
    have h3 := (List.mem_filter.mp hmem).1
    rcases hveg with hdt | hpref
    · subst hdt
      have h4 := mem_of_filter_by_diet h3
      exact not_dairy_of_mem_vegan_filter (show f ∈ filter_by_diet
        (regionFilter foods region) "vegan" from h4)
    · rw [hpref] at h3
      exact not_dairy_of_mem_vegan_filter h3
  · intro f h
    have hmd : matches_dietary_preference f "vegan" =
        (if f.category == "dairy" || f.category == "proteins" then
          (if decide ("paneer".toList <:+: strLower f.name_english)
              || decide ("dahi".toList <:+: strLower f.name_english) then false else true)
         else true) := rfl
    rw [hmd] at h
    split at h
    · rename_i hcat
      simp only [Bool.or_eq_true, beq_iff_eq] at hcat
      exact hcat
    · simp at h

theorem c10_vegan_exclusion_witness :
    (c10Paneer.category = "dairy" ∨ c10Paneer.category = "proteins")
    ∧ (c10Apple.category ≠ "dairy" ∧ c10Apple.category ≠ "proteins") :=
  ⟨c10_vegan_exclusion.2.2.1 c10Paneer (by decide),
   c10_vegan_exclusion.2.1 [c10Apple] c10VeganUser none none c10Apple (Or.inr rfl) (by decide)⟩

theorem lookup_mem {α β : Type} [BEq α] [LawfulBEq α] {k : α} {v : β} {l : List (α × β)}
    (h : List.lookup k l = some v) : (k, v) ∈ l := by
  induction l with
  | nil => simp [List.lookup] at h
  | cons p rest ih =>
    rcases p with ⟨k2, v2⟩
    rw [List.lookup] at h
    rcases hk : k == k2 with _ | _
    · rw [hk] at h
      exact List.mem_cons_of_mem _ (ih h)
    · rw [hk] at h
      obtain rfl : v2 = v := by simpa using h
      have : k = k2 := by simpa using hk
      subst this
      exact List.mem_cons_self _ _

theorem requirements_pos (t : ℕ) : ∀ p ∈ trimester_requirements t, 0 < p.2 := by
  intro p hp
  rw [trimester_requirements] at hp
  split at hp
  · fin_cases hp <;> norm_num
  · split at hp
    · fin_cases hp <;> norm_num
    · split at hp
      · fin_cases hp <;> norm_num
      · fin_cases hp <;> norm_num

theorem score_fold_spec (nutrition : List (String × ℚ)) (reqs : List (String × ℚ)) :
    ∀ (a : ℚ) (k : ℕ),
    reqs.foldl (scoreStep nutrition) (a, k) =
      (a + ((reqs.filter (fun nr => (List.lookup nr.1 nutrition).isSome)).map
        (fun nr => min ((List.lookup nr.1 nutrition).getD 0 / nr.2) 1)).sum,
       k + (reqs.filter (fun nr => (List.lookup nr.1 nutrition).isSome)).length) := by
  induction reqs with
  | nil => intro a k; simp
  | cons nr rest ih =>
    intro a k
    rcases h : List.lookup nr.1 nutrition with _ | amt
    · rw [List.foldl_cons]
      rw [show scoreStep nutrition (a, k) nr = (a, k) from by simp only [scoreStep, h]]
      rw [ih a k]
      simp [List.filter_cons, h]
    · rw [List.foldl_cons]
      rw [show scoreStep nutrition (a, k) nr = (a + min (amt / nr.2) 1, k + 1) from by
        simp only [scoreStep, h]]
      rw [ih]
      simp only [List.filter_cons, h, Option.isSome_some, if_true, List.map_cons,
        List.sum_cons, List.length_cons, Option.getD_some, Prod.mk.injEq]
      constructor
      · ring
      · omega

/-- C4: for every food with physically meaningful (non-negative) nutrient
amounts and every trimester in 1..3, calculate_nutritional_score lies in
[0, 1]; it is exactly 1/2 for an empty nutrient map and also when no nutrient
name is shared with the trimester requirement table; otherwise it is the
average of the capped ratios min(amount/required, 1) over the shared nutrient
names, clamped to at most 1. -/
theorem c4_nutritional_score (food : FoodItem) (t : ℕ)
    (_ht : t = 1 ∨ t = 2 ∨ t = 3)
    (hnn : ∀ p ∈ food.nutritional_info, 0 ≤ p.2) :
    0 ≤ calculate_nutritional_score food t
    ∧ calculate_nutritional_score food t ≤ 1
    ∧ (food.nutritional_info = [] → calculate_nutritional_score food t = 1/2)
    ∧ ((trimester_requirements t).filter
        (fun nr => (List.lookup nr.1 food.nutritional_info).isSome) = [] →
      calculate_nutritional_score food t = 1/2)
    ∧ (food.nutritional_info ≠ [] →
      (trimester_requirements t).filter
        (fun nr => (List.lookup nr.1 food.nutritional_info).isSome) ≠ [] →
      calculate_nutritional_score food t =
        min ((((trimester_requirements t).filter
            (fun nr => (List.lookup nr.1 food.nutritional_info).isSome)).map
            (fun nr => min ((List.lookup nr.1 food.nutritional_info).getD 0 / nr.2) 1)).sum /
          (((trimester_requirements t).filter
            (fun nr => (List.lookup nr.1 food.nutritional_info).isSome)).length : ℚ)) 1) := by
  set shared := (trimester_requirements t).filter
    (fun nr => (List.lookup nr.1 food.nutritional_info).isSome) with hshared
  set terms := shared.map
    (fun nr => min ((List.lookup nr.1 food.nutritional_info).getD 0 / nr.2) 1) with hterms
  have hterm_bounds : ∀ x ∈ terms, 0 ≤ x ∧ x ≤ 1 := by
    intro x hx
    rw [hterms] at hx
    obtain ⟨nr, hnr, rfl⟩ := List.mem_map.mp hx
    rw [hshared] at hnr
    have hreq := requirements_pos t nr (List.mem_of_mem_filter hnr)
    have hsome := List.of_mem_filter hnr
    simp only [Option.isSome_iff_exists] at hsome
    obtain ⟨amt, hamt⟩ := hsome
    have hmem := lookup_mem hamt
    have hamt_nn : 0 ≤ amt := hnn (nr.1, amt) hmem
    rw [hamt]
    constructor
    · exact le_min (div_nonneg hamt_nn (le_of_lt hreq)) (by norm_num)
    · exact min_le_right _ _
  have hsum_nn : 0 ≤ terms.sum := List.sum_nonneg (fun x hx => (hterm_bounds x hx).1)
  have hsum_le : terms.sum ≤ (terms.length : ℚ) := by
    have := List.sum_le_card_nsmul terms 1 (fun x hx => (hterm_bounds x hx).2)
    simpa [nsmul_eq_mul] using this
  have hlen : terms.length = shared.length := by rw [hterms, List.length_map]
  by_cases hempty : food.nutritional_info = []
  · have hs : calculate_nutritional_score food t = 1/2 := by
      rw [calculate_nutritional_score, hempty]
      simp
    rw [hs]
    exact ⟨by norm_num, by norm_num, fun _ => rfl, fun _ => rfl, fun h _ => absurd hempty h⟩
  · have hs : calculate_nutritional_score food t =
        min (if 0 < shared.length then terms.sum / (shared.length : ℚ) else 1/2) 1 := by
      rw [calculate_nutritional_score]
      rw [if_neg hempty]
      rw [score_fold_spec food.nutritional_info (trimester_requirements t) 0 0]
      simp only [zero_add, Nat.zero_add, ← hshared, ← hterms]
    rcases Nat.eq_zero_or_pos shared.length with hz | hpos
    · have hsh : shared = [] := List.length_eq_zero.mp hz
      have hs2 : calculate_nutritional_score food t = 1/2 := by
        rw [hs, if_neg (by omega)]
        norm_num
      rw [hs2]
      exact ⟨by norm_num, by norm_num, fun h => absurd h hempty, fun _ => rfl,
        fun _ h => absurd hsh h⟩
    · have hsh_ne : shared ≠ [] := by
        intro hcon
        rw [hcon] at hpos
        simp at hpos
      have hlq : (0 : ℚ) < (shared.length : ℚ) := by exact_mod_cast hpos
      have hs2 : calculate_nutritional_score food t =
          min (terms.sum / (shared.length : ℚ)) 1 := by
        rw [hs, if_pos hpos]
      have havg_nn : 0 ≤ terms.sum / (shared.length : ℚ) :=
        div_nonneg hsum_nn (le_of_lt hlq)
      refine ⟨?_, ?_, fun h => absurd h hempty, fun h => absurd h hsh_ne, fun _ _ => hs2⟩
      · rw [hs2]
        exact le_min havg_nn (by norm_num)
      · rw [hs2]
        exact min_le_right _ _

theorem c4_nutritional_score_witness :
    0 ≤ calculate_nutritional_score c4Food 1
    ∧ calculate_nutritional_score c4Food 1 ≤ 1
    ∧ (c4Food.nutritional_info = [] → calculate_nutritional_score c4Food 1 = 1/2)
    ∧ ((trimester_requirements 1).filter
        (fun nr => (List.lookup nr.1 c4Food.nutritional_info).isSome) = [] →
      calculate_nutritional_score c4Food 1 = 1/2)
    ∧ (c4Food.nutritional_info ≠ [] →
      (trimester_requirements 1).filter
        (fun nr => (List.lookup nr.1 c4Food.nutritional_info).isSome) ≠ [] →
      calculate_nutritional_score c4Food 1 =
        min ((((trimester_requirements 1).filter
            (fun nr => (List.lookup nr.1 c4Food.nutritional_info).isSome)).map
            (fun nr => min ((List.lookup nr.1 c4Food.nutritional_info).getD 0 / nr.2) 1)).sum /
          (((trimester_requirements 1).filter
            (fun nr => (List.lookup nr.1 c4Food.nutritional_info).isSome)).length : ℚ)) 1) :=
  c4_nutritional_score c4Food 1 (Or.inl rfl) (by simp [c4Food])

theorem mem_varietyFirstPass (m : ℕ) (x : ScoredCandidate) :
    ∀ (pool : List ScoredCandidate) (counts : String → ℕ) (sel : List ScoredCandidate),
    x ∈ varietyFirstPass m pool counts sel → x ∈ sel ∨ x ∈ pool := by
  intro pool
  induction pool with
  | nil =>
    intro counts sel h
    exact Or.inl (by simpa [varietyFirstPass] using h)
  | cons item rest ih =>
    intro counts sel h
    simp only [varietyFirstPass] at h
    split at h
    · split at h
      · rcases List.mem_append.mp h with h2 | h2
        · exact Or.inl h2
        · simp only [List.mem_singleton] at h2
          exact Or.inr (by rw [h2]; exact List.mem_cons_self _ _)
      · rcases ih _ _ h with h2 | h2
        · rcases List.mem_append.mp h2 with h3 | h3
          · exact Or.inl h3
          · simp only [List.mem_singleton] at h3
            exact Or.inr (by rw [h3]; exact List.mem_cons_self _ _)
        · exact Or.inr (List.mem_cons_of_mem _ h2)
    · split at h
      · exact Or.inl h
      · rcases ih _ _ h with h2 | h2
        · exact Or.inl h2
        · exact Or.inr (List.mem_cons_of_mem _ h2)

theorem mem_varietySecondPass (m : ℕ) (x : ScoredCandidate) :
    ∀ (pool sel : List ScoredCandidate),
    x ∈ varietySecondPass m pool sel → x ∈ sel ∨ x ∈ pool := by
  intro pool
  induction pool with
  | nil =>
    intro sel h
    exact Or.inl (by simpa [varietySecondPass] using h)
  | cons item rest ih =>
    intro sel h
    simp only [varietySecondPass] at h
    by_cases hmem : item ∈ sel
    · rw [if_pos hmem] at h
      split at h
      · exact Or.inl h
      · rcases ih _ h with h2 | h2
        · exact Or.inl h2
        · exact Or.inr (List.mem_cons_of_mem _ h2)
    · rw [if_neg hmem] at h
      split at h
      · rcases List.mem_append.mp h with h3 | h3
        · exact Or.inl h3
        · simp only [List.mem_singleton] at h3
          exact Or.inr (by rw [h3]; exact List.mem_cons_self _ _)
      · rcases ih _ h with h2 | h2
        · rcases List.mem_append.mp h2 with h3 | h3
          · exact Or.inl h3
          · simp only [List.mem_singleton] at h3
            exact Or.inr (by rw [h3]; exact List.mem_cons_self _ _)
        · exact Or.inr (List.mem_cons_of_mem _ h2)

theorem mem_ensure_variety (pool : List ScoredCandidate) (m : ℕ) (x : ScoredCandidate)
    (h : x ∈ ensure_variety pool m) : x ∈ pool := by
  simp only [ensure_variety] at h
  split at h
  · rcases mem_varietySecondPass m x pool _ h with h2 | h2
    · rcases mem_varietyFirstPass m x pool _ _ h2 with h3 | h3
      · simp at h3
      · exact h3
    · exact h2
  · rcases mem_varietyFirstPass m x pool _ _ h with h3 | h3
    · simp at h3
    · exact h3

theorem varietyFirstPass_countP (m : ℕ) :
    ∀ (pool : List ScoredCandidate) (counts : String → ℕ) (sel : List ScoredCandidate),
    (∀ cat, sel.countP (fun r => r.food.category == cat) = counts cat) →
    (∀ cat, counts cat ≤ varietyMax m) →
    ∀ cat, (varietyFirstPass m pool counts sel).countP
      (fun r => r.food.category == cat) ≤ varietyMax m := by
  intro pool
  induction pool with
  | nil =>
    intro counts sel hc hb cat
    simp only [varietyFirstPass]
    rw [hc]
    exact hb cat
  | cons item rest ih =>
    intro counts sel hc hb cat
    simp only [varietyFirstPass]
    split
    · rename_i hadm
      have hc2 : ∀ cat2, (sel ++ [item]).countP (fun r => r.food.category == cat2) =
          (fun k => if k = item.food.category then counts item.food.category + 1
            else counts k) cat2 := by
        intro cat2
        simp only [List.countP_append, List.countP_cons, List.countP_nil, hc]
        by_cases h2 : cat2 = item.food.category
        · subst h2
          simp
        · have hbe : (item.food.category == cat2) = false := by
            simpa using (Ne.symm h2)
          rw [hbe, if_neg h2]
          simp
      have hb2 : ∀ cat2, (fun k => if k = item.food.category then
          counts item.food.category + 1 else counts k) cat2 ≤ varietyMax m := by
        intro cat2
        by_cases h2 : cat2 = item.food.category
        · simp only [h2, if_pos]
          omega
        · simp only [if_neg h2]
          exact hb cat2
      split
      · rw [hc2 cat]
        exact hb2 cat
      · exact ih _ _ hc2 hb2 cat
    · split
      · rw [hc cat]
        exact hb cat
      · exact ih _ _ hc hb cat

theorem safe_of_mem_recCandidates {foods : List FoodItem}
    {interactions : List UserInteraction} {user : User} {r : ScoredCandidate}
    (h : r ∈ recCandidates foods interactions user) :
    (check_safety r.food user.health_conditions).1 = true := by
  rw [recCandidates] at h
  obtain ⟨food, -, heq⟩ := List.mem_filterMap.mp h
  dsimp only at heq
  split at heq
  · exact absurd heq (by simp)
  · split at heq
    · exact absurd heq (by simp)
    · rename_i hs hd
      obtain rfl := Option.some.inj heq
      simpa using hs

/-- C3: the list returned by get_recommendations never contains a food that
failed check_safety for the user's health conditions, and its length is at
most max_items. -/
theorem c3_recommendations (foods : List FoodItem) (interactions : List UserInteraction)
    (user : User) (max_items : ℕ) :
    ((get_recommendations foods interactions user max_items).all
      (fun r => (check_safety r.food user.health_conditions).1)) = true
    ∧ (get_recommendations foods interactions user max_items).length ≤ max_items := by
  constructor
  · rw [List.all_eq_true]
    intro r hr
    rw [get_recommendations] at hr
    split at hr
    · simp at hr
    · have h1 := List.mem_of_mem_take hr
      have h2 := mem_ensure_variety _ _ _ h1
      rw [recPool] at h2
      have h3 := List.mem_of_mem_take h2
      rw [mem_sortDescBy] at h3
      exact safe_of_mem_recCandidates h3
  · rw [get_recommendations]
    split
    · simp
    · simp only [List.length_take]
      omega

/-- C2: in the list returned by get_recommendations no category occurs more
than max(2, max_items / 4) times, unless the category-capped first pass over
the diversity pool (the top 2*max_items sorted candidates) was exhausted with
fewer than max_items admitted. -/
theorem c2_category_diversity (foods : List FoodItem) (interactions : List UserInteraction)
    (user : User) (max_items : ℕ) :
    (∀ cat : String, (get_recommendations foods interactions user max_items).countP
        (fun r => r.food.category == cat) ≤ varietyMax max_items)
    ∨ (varietyFirstPass max_items (recPool foods interactions user max_items)
        (fun _ => 0) []).length < max_items := by
  by_cases hfp : (varietyFirstPass max_items (recPool foods interactions user max_items)
      (fun _ => 0) []).length < max_items
  · exact Or.inr hfp
  · left
    intro cat
    have hcap := varietyFirstPass_countP max_items (recPool foods interactions user max_items)
      (fun _ => 0) [] (fun cat2 => by simp) (fun cat2 => by simp [varietyMax]) cat
    rw [get_recommendations]
    split
    · simp [varietyMax]
    · simp only [ensure_variety]
      rw [if_neg hfp]
      calc (List.take max_items (varietyFirstPass max_items
              (recPool foods interactions user max_items) (fun _ => 0) [])).countP
              (fun r => r.food.category == cat)
          ≤ (varietyFirstPass max_items (recPool foods interactions user max_items)
              (fun _ => 0) []).countP (fun r => r.food.category == cat) :=
            List.Sublist.countP_le _ (List.take_sublist _ _)
        _ ≤ varietyMax max_items := hcap

theorem digitChar_isDigit {d : ℕ} (hd : d < 10) : (digitChar d).isDigit = true := by
  interval_cases d <;> decide

theorem charDigit_digitChar {d : ℕ} (hd : d < 10) : charDigit (digitChar d) = d := by
  interval_cases d <;> decide

theorem encodeNat_digits (n : ℕ) : ∀ c ∈ encodeNat n, c.isDigit = true := by
  intro c hc
  rw [encodeNat] at hc
  split at hc
  · simp only [List.mem_singleton] at hc
    rw [hc]
    decide
  · simp only [List.mem_map, List.mem_reverse] at hc
    obtain ⟨d, hd, rfl⟩ := hc
    exact digitChar_isDigit (Nat.digits_lt_base (by norm_num) hd)

theorem encodeNat_ne_nil (n : ℕ) : encodeNat n ≠ [] := by
  rw [encodeNat]
  split
  · simp
  · rename_i hn
    intro hcon
    rw [List.map_eq_nil_iff, List.reverse_eq_nil_iff] at hcon
    exact (Nat.digits_ne_nil_iff_ne_zero.mpr hn) hcon

theorem takeWhile_append_all {p : Char → Bool} (l : List Char) :
    ∀ r : List Char, (∀ c ∈ l, p c = true) →
    (∀ c, r.head? = some c → p c = false) →
    (l ++ r).takeWhile p = l ∧ (l ++ r).dropWhile p = r := by
  induction l with
  | nil =>
    intro r _ hr
    cases r with
    | nil => simp
    | cons c cs =>
      have hc := hr c rfl
      constructor
      · simp [List.takeWhile_cons, hc]
      · simp [List.dropWhile_cons, hc]
  | cons a as ih =>
    intro r hl hr
    have hpa : p a = true := hl a (List.mem_cons_self _ _)
    have ih2 := ih r (fun c hc => hl c (List.mem_cons_of_mem _ hc)) hr
    constructor
    · simp only [List.cons_append, List.takeWhile_cons, hpa, if_true, ih2.1]
    · simp only [List.cons_append, List.dropWhile_cons, hpa, if_true, ih2.2]

theorem decode_encodeNat (n : ℕ) :
    Nat.ofDigits 10 ((encodeNat n).map charDigit).reverse = n := by
  rw [encodeNat]
  split
  · rename_i h
    subst h
    simp [charDigit, Nat.ofDigits]
  · rw [List.map_map]
    have h2 : ((Nat.digits 10 n).reverse.map (charDigit ∘ digitChar)) =
        ((Nat.digits 10 n).reverse.map id) :=
      List.map_congr_left (fun d hd =>
        charDigit_digitChar (Nat.digits_lt_base (by norm_num) (List.mem_reverse.mp hd)))
    rw [h2, List.map_id, List.reverse_reverse, Nat.ofDigits_digits]

theorem parseNatTok_encode (n : ℕ) (rest : List Char)
    (hr : ∀ c, rest.head? = some c → c.isDigit = false) :
    parseNatTok (encodeNat n ++ rest) = some (n, rest) := by
  have h1 := takeWhile_append_all (encodeNat n) rest (encodeNat_digits n) hr
  rw [parseNatTok]
  simp only [h1.1, h1.2]
  rw [if_neg (encodeNat_ne_nil n)]
  rw [decode_encodeNat]

theorem jsonLoadItems_encode :
    ∀ (xs : List ℕ) (x : ℕ) (fuel : ℕ), xs.length < fuel →
    jsonLoadItems fuel (encodeIdList (x :: xs) ++ [']']) = some (x :: xs) := by
  intro xs
  induction xs with
  | nil =>
    intro x fuel hf
    obtain ⟨f, rfl⟩ : ∃ f, fuel = f + 1 := ⟨fuel - 1, by omega⟩
    rw [jsonLoadItems]
    rw [show encodeIdList [x] = encodeNat x from rfl]
    rw [parseNatTok_encode x [']'] (by
      intro c hc
      simp only [List.head?_cons, Option.some.injEq] at hc
      rw [← hc]
      decide)]
    rfl
  | cons y ys ih =>
    intro x fuel hf
    obtain ⟨f, rfl⟩ : ∃ f, fuel = f + 1 := ⟨fuel - 1, by omega⟩
    rw [jsonLoadItems]
    have henc : encodeIdList (x :: y :: ys) ++ [']'] =
        encodeNat x ++ (',' :: ' ' :: (encodeIdList (y :: ys) ++ [']'])) := by
      rw [show encodeIdList (x :: y :: ys) =
        encodeNat x ++ ',' :: ' ' :: encodeIdList (y :: ys) from rfl]
      simp [List.append_assoc]
    rw [henc]
    rw [parseNatTok_encode x _ (by
      intro c hc
      simp only [List.head?_cons, Option.some.injEq] at hc
      rw [← hc]
      decide)]
    have hlen : ys.length < f := by
      simp only [List.length_cons] at hf
      omega
    show (jsonLoadItems f (encodeIdList (y :: ys) ++ [']'])).map (fun l => x :: l) = _
    rw [ih y f hlen]
    rfl

theorem encodeIdList_length (x : ℕ) (xs : List ℕ) :
    xs.length ≤ (encodeIdList (x :: xs)).length := by
  induction xs generalizing x with
  | nil => simp
  | cons y ys ih =>
    rw [show encodeIdList (x :: y :: ys) =
      encodeNat x ++ ',' :: ' ' :: encodeIdList (y :: ys) from rfl]
    simp only [List.length_append, List.length_cons]
    have h1 : 1 ≤ (encodeNat x).length := List.length_pos.mpr (encodeNat_ne_nil x)
    have h2 := ih y
    omega

theorem encodeIdList_cons_ne_nil (x : ℕ) (xs : List ℕ) : encodeIdList (x :: xs) ≠ [] := by
  cases xs with
  | nil => exact encodeNat_ne_nil x
  | cons y ys =>
    rw [show encodeIdList (x :: y :: ys) =
      encodeNat x ++ ',' :: ' ' :: encodeIdList (y :: ys) from rfl]
    simp [encodeNat_ne_nil x]

theorem get_set_food_items (r : Recommendation) (ids : List ℕ) :
    (r.set_food_items ids).get_food_items = ids := by
  rw [Recommendation.set_food_items, Recommendation.get_food_items]
  dsimp only
  rw [if_neg (by rw [jsonDumpIds]; simp)]
  rw [jsonDumpIds]
  cases ids with
  | nil =>
    rw [show encodeIdList [] = [] from rfl]
    rfl
  | cons x xs =>
    have hne : encodeIdList (x :: xs) ++ [']'] ≠ [']'] := by
      intro hcon
      have hlen := congrArg List.length hcon
      simp only [List.length_append, List.length_cons, List.length_singleton,
        List.length_nil] at hlen
      exact (encodeIdList_cons_ne_nil x xs) (List.length_eq_zero.mp (by omega))
    have hstep : jsonLoadIds ('[' :: (encodeIdList (x :: xs) ++ [']'])) =
        if encodeIdList (x :: xs) ++ [']'] = [']'] then some []
        else jsonLoadItems (encodeIdList (x :: xs) ++ [']']).length
          (encodeIdList (x :: xs) ++ [']']) := rfl
    rw [List.cons_append, hstep, if_neg hne]
    rw [jsonLoadItems_encode xs x (encodeIdList (x :: xs) ++ [']']).length (by
      simp only [List.length_append, List.length_singleton]
      have := encodeIdList_length x xs
      omega)]
    rfl

theorem find_by_id_eq {catalog : List FoodItem}
    (hnodup : (catalog.map (fun f => f.id)).Nodup)
    {f : FoodItem} (hf : f ∈ catalog) :
    catalog.find? (fun g => g.id == f.id) = some f := by
  induction catalog with
  | nil => simp at hf
  | cons g rest ih =>
    rw [List.map_cons, List.nodup_cons] at hnodup
    by_cases hid : (g.id == f.id) = true
    · have hfind : List.find? (fun g2 => g2.id == f.id) (g :: rest) = some g :=
        List.find?_cons_of_pos _ hid
      rw [hfind]
      rcases List.mem_cons.mp hf with h | h
      · rw [h]
      · exfalso
        have hin : f.id ∈ rest.map (fun f => f.id) := List.mem_map_of_mem _ h
        rw [← (by simpa using hid : g.id = f.id)] at hin
        exact hnodup.1 hin
    · have hfind : List.find? (fun g2 => g2.id == f.id) (g :: rest) =
          List.find? (fun g2 => g2.id == f.id) rest :=
        List.find?_cons_of_neg _ hid
      rw [hfind]
      rcases List.mem_cons.mp hf with h | h
      · exfalso
        rw [h] at hid
        simp at hid
      · exact ih hnodup.2 h

/-- C9: storing a food-id list with set_food_items and reading it back with
get_food_items yields the same list in the same order, and re-expanding the
stored ids against a catalog with distinct ids reproduces the same ordered
food list that was returned at creation time. -/
theorem c9_roundtrip :
    (∀ (r : Recommendation) (ids : List ℕ), (r.set_food_items ids).get_food_items = ids)
    ∧ (∀ (catalog foods : List FoodItem),
        (catalog.map (fun f => f.id)).Nodup → (∀ f ∈ foods, f ∈ catalog) →
        (foods.map (fun f => f.id)).map (fun i => catalog.find? (fun g => g.id == i)) =
          foods.map (fun f => some f)) := by
  constructor
  · exact get_set_food_items
  · intro catalog foods hnodup hsub
    rw [List.map_map]
    exact List.map_congr_left (fun f hf => find_by_id_eq hnodup (hsub f hf))

theorem c9_roundtrip_witness :
    ((c9Rec.set_food_items [12, 5, 33]).get_food_items = [12, 5, 33])
    ∧ ((c9Catalog.map (fun f => f.id)).map (fun i => c9Catalog.find? (fun g => g.id == i)) =
        c9Catalog.map (fun f => some f)) :=
  ⟨c9_roundtrip.1 c9Rec [12, 5, 33],
   c9_roundtrip.2 c9Catalog c9Catalog (by decide) (fun _ hf => hf)⟩

theorem slotStep_meals_extend (safe : List FoodItem) (user : User) (sample : Sampler)
    (randint : RandInt) (day : ℕ) (acc : List (List Char × List FoodItem) × List ℕ)
    (mt : List Char) :
    ∃ t, (slotStep safe user sample randint day acc mt).1 = acc.1 ++ t := by
  simp only [slotStep]
  repeat' split
  all_goals first
    | exact ⟨_, rfl⟩
    | exact ⟨[], (List.append_nil _).symm⟩

theorem foldl_slotStep_extend (safe : List FoodItem) (user : User) (sample : Sampler)
    (randint : RandInt) (day : ℕ) :
    ∀ (ss : List (List Char)) (acc : List (List Char × List FoodItem) × List ℕ),
    ∃ t, (ss.foldl (slotStep safe user sample randint day) acc).1 = acc.1 ++ t := by
  intro ss
  induction ss with
  | nil => intro acc; exact ⟨[], by simp⟩
  | cons s rest ih =>
    intro acc
    rw [List.foldl_cons]
    obtain ⟨t1, ht1⟩ := slotStep_meals_extend safe user sample randint day acc s
    obtain ⟨t2, ht2⟩ := ih (slotStep safe user sample randint day acc s)
    exact ⟨t1 ++ t2, by rw [ht2, ht1, List.append_assoc]⟩

theorem slotStep_populates (safe : List FoodItem) (user : User) (sample : Sampler)
    (randint : RandInt) (day : ℕ) (acc : List (List Char × List FoodItem) × List ℕ)
    (slot : List Char)
    (hsample : ∀ d s pool k, k ≤ pool.length → (sample d s pool k).length = k)
    (hrand : ∀ d s, 2 ≤ randint d s ∧ randint d s ≤ 3)
    (hex : ∃ f ∈ safe, f.category ∈ meal_categories slot) :
    ∃ sel, (slotStep safe user sample randint day acc slot).1 = acc.1 ++ [(slot, sel)]
      ∧ sel ≠ [] := by
  obtain ⟨f, hf, hcat⟩ := hex
  have hcat2 : ((meal_categories slot).contains f.category) = true :=
    List.elem_eq_true_of_mem hcat
  have hfall : safe.filter (fun g => (meal_categories slot).contains g.category) ≠ [] := by
    intro hcon
    have hmemf : f ∈ safe.filter (fun g => (meal_categories slot).contains g.category) :=
      List.mem_filter.mpr ⟨hf, hcat2⟩
    rw [hcon] at hmemf
    simp at hmemf
  have hmf : (if safe.filter (fun g => (meal_categories slot).contains g.category
        && !(acc.2.contains g.id)) = []
      then safe.filter (fun g => (meal_categories slot).contains g.category)
      else safe.filter (fun g => (meal_categories slot).contains g.category
        && !(acc.2.contains g.id))) ≠ [] := by
    split
    · exact hfall
    · rename_i hp
      exact hp
  have hMlen := List.length_pos.mpr hmf
  have hnum : 1 ≤ (if snackSlot slot then 2 else randint day slot) := by
    split
    · omega
    · have h2 := (hrand day slot).1
      omega
  simp only [slotStep]
  rw [if_neg hmf]
  refine ⟨_, rfl, ?_⟩
  intro hcon
  have hlen := congrArg List.length hcon
  rw [List.length_map] at hlen
  rw [hsample day slot _ _ (Nat.min_le_right _ _)] at hlen
  rw [List.length_nil] at hlen
  rw [Nat.min_eq_zero_iff] at hlen
  rcases hlen with h0 | h0
  · omega
  · rw [List.length_take, length_sortDescBy, List.length_map] at h0
    rw [Nat.min_eq_zero_iff] at h0
    rcases h0 with h1 | h1
    · omega
    · omega

theorem foldl_slotStep_populates (safe : List FoodItem) (user : User) (sample : Sampler)
    (randint : RandInt) (day : ℕ)
    (hsample : ∀ d s pool k, k ≤ pool.length → (sample d s pool k).length = k)
    (hrand : ∀ d s, 2 ≤ randint d s ∧ randint d s ≤ 3) :
    ∀ (ss : List (List Char)) (acc : List (List Char × List FoodItem) × List ℕ)
      (slot : List Char), slot ∈ ss →
    (∃ f ∈ safe, f.category ∈ meal_categories slot) →
    ∃ sel, (slot, sel) ∈ (ss.foldl (slotStep safe user sample randint day) acc).1
      ∧ sel ≠ [] := by
  intro ss
  induction ss with
  | nil =>
    intro acc slot h
    simp at h
  | cons s rest ih =>
    intro acc slot hslot hex
    rw [List.foldl_cons]
    rcases List.mem_cons.mp hslot with rfl | htail
    · obtain ⟨sel, hstep, hne2⟩ :=
        slotStep_populates safe user sample randint day acc slot hsample hrand hex
      obtain ⟨t, ht⟩ := foldl_slotStep_extend safe user sample randint day rest
        (slotStep safe user sample randint day acc slot)
      refine ⟨sel, ?_, hne2⟩
      rw [ht, hstep]
      simp
    · exact ih (slotStep safe user sample randint day acc s) slot htail hex

theorem genDaysLoop_length (catalog safe : List FoodItem) (user : User) (sample : Sampler)
    (randint : RandInt) :
    ∀ (days used : List ℕ),
    (genDaysLoop catalog safe user sample randint days used).length = days.length := by
  intro days
  induction days with
  | nil => intro used; rfl
  | cons d rest ih =>
    intro used
    simp only [genDaysLoop, List.length_cons, ih]

theorem genDaysLoop_meals (catalog safe : List FoodItem) (user : User) (sample : Sampler)
    (randint : RandInt) :
    ∀ (days used : List ℕ) (entry : DayPlan),
    entry ∈ genDaysLoop catalog safe user sample randint days used →
    ∃ d u2, entry.meals = (generate_day_meals safe user u2 d sample randint).1 := by
  intro days
  induction days with
  | nil =>
    intro used entry h
    simp [genDaysLoop] at h
  | cons d rest ih =>
    intro used entry h
    simp only [genDaysLoop] at h
    rcases List.mem_cons.mp h with rfl | htail
    · exact ⟨d, _, rfl⟩
    · exact ih _ _ htail

/-- C7: on a non-empty filtered candidate set, generate_meal_plan succeeds
with exactly clamp(days, 1, 30) day entries, and in every day entry each of
the five meal slots carries a non-empty food list whenever at least one
candidate food lies in that slot's allowed categories; the injected sampler
returns exactly the requested number of picks and the injected randint stays
in [2, 3], as random.sample and random.randint(2, 3) do. -/
theorem c7_meal_plan (foods : List FoodItem) (user : User) (days : ℤ)
    (region diet_type : Option String) (sample : Sampler) (randint : RandInt)
    (hsample : ∀ d s pool k, k ≤ pool.length → (sample d s pool k).length = k)
    (hrand : ∀ d s, 2 ≤ randint d s ∧ randint d s ≤ 3)
    (hne : mealPlanCandidates foods user region diet_type ≠ []) :
    ∃ plan summary table,
      generate_meal_plan foods user days region diet_type sample randint =
        PlanResult.ok plan summary table
      ∧ plan.length = (max 1 (min days 30)).toNat
      ∧ ∀ entry ∈ plan, ∀ slot ∈ meal_types,
          (∃ f ∈ mealPlanCandidates foods user region diet_type,
            f.category ∈ meal_categories slot) →
          ∃ sel, (slot, sel) ∈ entry.meals ∧ sel ≠ [] := by
  have hgen : generate_meal_plan foods user days region diet_type sample randint =
      PlanResult.ok
        (genDaysLoop foods (mealPlanCandidates foods user region diet_type) user sample
          randint (List.range' 1 (max 1 (min days 30)).toNat) [])
        (calculate_plan_summary
          (genDaysLoop foods (mealPlanCandidates foods user region diet_type) user sample
            randint (List.range' 1 (max 1 (min days 30)).toNat) []))
        (format_as_table
          (genDaysLoop foods (mealPlanCandidates foods user region diet_type) user sample
            randint (List.range' 1 (max 1 (min days 30)).toNat) [])) := by
    simp only [generate_meal_plan]
    rw [if_neg hne]
  refine ⟨_, _, _, hgen, ?_, ?_⟩
  · rw [genDaysLoop_length]
    exact List.length_range' _ _ _
  · intro entry hentry slot hslot hex
    obtain ⟨d, u2, hm⟩ :=
      genDaysLoop_meals foods (mealPlanCandidates foods user region diet_type) user sample
        randint (List.range' 1 (max 1 (min days 30)).toNat) [] entry hentry
    rw [hm, generate_day_meals]
    exact foldl_slotStep_populates (mealPlanCandidates foods user region diet_type) user
      sample randint d hsample hrand meal_types ([], u2) slot hslot hex

theorem c7_meal_plan_witness :
    ∃ plan summary table,
      generate_meal_plan [c7Food] c7User 3 none none takeSampler twoRandInt =
        PlanResult.ok plan summary table
      ∧ plan.length = 3
      ∧ ∀ entry ∈ plan, ∀ slot ∈ meal_types,
          (∃ f ∈ mealPlanCandidates [c7Food] c7User none none,
            f.category ∈ meal_categories slot) →
          ∃ sel, (slot, sel) ∈ entry.meals ∧ sel ≠ [] := by
  obtain ⟨plan, summary, table, h1, h2, h3⟩ :=
    c7_meal_plan [c7Food] c7User 3 none none takeSampler twoRandInt
      (by
        intro d s pool k hk
        simp only [takeSampler, List.length_take]
        omega)
      (by intro d s; constructor <;> simp [twoRandInt])
      (by decide)
  exact ⟨plan, summary, table, h1, by rw [h2]; decide, h3⟩
